import Mathlib

/-!
Shallow embedding of `weather art.py` (class `WeatherDataVisualizer` plus
`main`).  Numeric values are modelled by `ℚ`; the transcendental functions
supplied by numpy (`np.sin`, `np.pi`) are abstracted into an environment
`NpEnv`, and every draw from `np.random.normal` is an explicit input stream,
so the whole pipeline is a pure function of the random stream, exactly as
the program is a pure function of numpy's PRNG state.
-/

set_option autoImplicit false

/-- Environment holding the numpy transcendentals used by the script:
`np.sin` and `np.pi`.  They are opaque parameters of the model. -/
structure NpEnv where
  sin : ℚ → ℚ
  pi : ℚ

/-- One row of the DataFrame built by `generate_sample_data`:
date (stored as the `i` of `datetime.now() - timedelta(days=i)`),
temperature, humidity and wind_speed. -/
structure Reading where
  daysAgo : ℕ
  temperature : ℚ
  humidity : ℚ
  wind_speed : ℚ
deriving DecidableEq

instance : Inhabited Reading := ⟨⟨0, 0, 0, 0⟩⟩

/-- The three `np.random.normal` vectors drawn by `generate_sample_data`,
one value per sample index. -/
structure NoiseDraws where
  tempNoise : ℕ → ℚ
  humNoise : ℕ → ℚ
  windNoise : ℕ → ℚ

/-- Value number `k` of `np.linspace a b n`: `a + (b - a) * k / (n - 1)`. -/
def linspaceVal (a b : ℚ) (n : ℕ) (k : ℕ) : ℚ :=
  a + (b - a) * k / ((n : ℚ) - 1)

/-- `generate_sample_data`: 30 daily readings.  Each field is
`base + noise` where the base is a sinusoid over `np.linspace(0, 2π, 30)`
with a per-field phase offset; wind speed is passed through `np.abs`. -/
def generate_sample_data (env : NpEnv) (nd : NoiseDraws) : List Reading :=
  (List.range 30).map (fun k =>
    { daysAgo := k
      temperature := (20 + 5 * env.sin (linspaceVal 0 (2 * env.pi) 30 k)) + nd.tempNoise k
      humidity := (60 + 15 * env.sin (linspaceVal 0 (2 * env.pi) 30 k + 1/2)) + nd.humNoise k
      wind_speed := |(5 + 3 * env.sin (linspaceVal 0 (2 * env.pi) 30 k + 1)) + nd.windNoise k| })

/-- The `temperature` column of the DataFrame. -/
def tempCol (data : List Reading) : List ℚ := data.map Reading.temperature

/-- The `humidity` column of the DataFrame. -/
def humCol (data : List Reading) : List ℚ := data.map Reading.humidity

/-- Minimum of a pandas column (`Series.min`), 0 on the empty column. -/
def colMin : List ℚ → ℚ
  | [] => 0
  | x :: xs => xs.foldl min x

/-- Maximum of a pandas column (`Series.max`), 0 on the empty column. -/
def colMax : List ℚ → ℚ
  | [] => 0
  | x :: xs => xs.foldl max x

/-- `process_data`: selects the reading at `frame % len(self.data)` and maps
it to `(idx, frequency, amplitude, complexity)` with
`frequency = 0.5 + 1.5 * (temp - temp_min) / (temp_max - temp_min)`,
`amplitude = 0.5 + 1.0 * humidity / 100`, `complexity = 1 + wind / 5`. -/
def process_data (data : List Reading) (frame : ℕ) : ℕ × ℚ × ℚ × ℚ :=
  let idx := frame % data.length
  let temp := (data.getD idx default).temperature
  let humidity := (data.getD idx default).humidity
  let wind := (data.getD idx default).wind_speed
  let temp_min := colMin (tempCol data)
  let temp_max := colMax (tempCol data)
  let frequency := 1/2 + 3/2 * (temp - temp_min) / (temp_max - temp_min)
  let amplitude := 1/2 + 1 * humidity / 100
  let complexity := 1 + wind / 5
  (idx, frequency, amplitude, complexity)

/-- Sample `k` of `x = np.linspace(0, 10, 1000)` in `generate_waveform`. -/
def xSample (k : ℕ) : ℚ := linspaceVal 0 10 1000 k

/-- Phase offset `line_idx * np.pi / 2` of the base waveform of a line. -/
def lineOffset (env : NpEnv) (line_idx : ℕ) : ℚ := line_idx * env.pi / 2

/-- Base waveform `amplitude * np.sin(frequency * x + line_idx * np.pi/2)`. -/
def baseWave (env : NpEnv) (frequency amplitude : ℚ) (line_idx : ℕ) (x : ℚ) : ℚ :=
  amplitude * env.sin (frequency * x + lineOffset env line_idx)

/-- Amplitude `amplitude / (i * 2)` of harmonic `i` in `generate_waveform`. -/
def harmonicAmp (amplitude : ℚ) (i : ℤ) : ℚ := amplitude / (i * 2)

/-- Frequency `frequency * (i + 0.5)` of harmonic `i` in `generate_waveform`. -/
def harmonicFreq (frequency : ℚ) (i : ℤ) : ℚ := frequency * ((i : ℚ) + 1/2)

/-- Phase shift `line_idx * np.pi / (i + 1)` of harmonic `i`. -/
def phaseShift (env : NpEnv) (line_idx : ℕ) (i : ℤ) : ℚ :=
  (line_idx : ℚ) * env.pi / ((i : ℚ) + 1)

/-- Contribution `harmonic_amp * np.sin(harmonic_freq * x + phase_shift)` of
harmonic `i` to a sample of `y`. -/
def harmonicTerm (env : NpEnv) (frequency amplitude : ℚ) (line_idx : ℕ) (i : ℤ) (x : ℚ) : ℚ :=
  harmonicAmp amplitude i * env.sin (harmonicFreq frequency i * x + phaseShift env line_idx i)

/-- Python `int()` on a rational: truncation toward zero. -/
def pyInt (c : ℚ) : ℤ := if 0 ≤ c then ⌊c⌋ else ⌈c⌉

/-- The loop indices `range(1, int(complexity) + 1)` of `generate_waveform`:
the integers `1, 2, ..., int(complexity)`. -/
def harmonicRange (complexity : ℚ) : List ℤ :=
  List.map (fun k : ℕ => 1 + (k : ℤ)) (List.range (pyInt complexity).toNat)

/-- Sample `k` of the `y` vector of `generate_waveform`: the base waveform,
plus the harmonic loop accumulated with `y += ...`, plus the noise draw
`np.random.normal(0, 0.05 * complexity)` modelled as `0.05 * complexity`
times a standard draw `z k`. -/
def waveY (env : NpEnv) (z : ℕ → ℚ) (frequency amplitude complexity : ℚ)
    (line_idx : ℕ) (k : ℕ) : ℚ :=
  ((harmonicRange complexity).foldl
      (fun y i => y + harmonicTerm env frequency amplitude line_idx i (xSample k))
      (baseWave env frequency amplitude line_idx (xSample k)))
    + (1/20 * complexity) * z k

/-- `generate_waveform`: the sampled `(x, y)` vectors of one line. -/
def generate_waveform (env : NpEnv) (z : ℕ → ℚ) (frequency amplitude complexity : ℚ)
    (line_idx : ℕ) : List ℚ × List ℚ :=
  ((List.range 1000).map xSample,
   (List.range 1000).map (waveY env z frequency amplitude complexity line_idx))

/-- Number of waveform lines created by `setup_visual_elements`
(`for i in range(5)`), i.e. `len(self.lines)`. -/
def numLines : ℕ := 5

/-- Normalized temperature
`(temp[idx] - temp.min()) / (temp.max() - temp.min())` used by `update`
to key the colormap. -/
def normTemp (data : List Reading) (idx : ℕ) : ℚ :=
  ((data.getD idx default).temperature - colMin (tempCol data))
    / (colMax (tempCol data) - colMin (tempCol data))

/-- One `update` call: for each of the 5 lines, the `(x, y)` data set by
`set_data`, the color `cmap(norm_temp)` set by `set_color` and the alpha
`0.5 + 0.5 * (i / len(self.lines))` set by `set_alpha`.  The colormap is an
opaque function into an abstract color type. -/
def update {Color : Type} (env : NpEnv) (cmap : ℚ → Color) (z : ℕ → ℕ → ℚ)
    (data : List Reading) (frame : ℕ) : List ((List ℚ × List ℚ) × Color × ℚ) :=
  let p := process_data data frame
  (List.range numLines).map (fun i =>
    (generate_waveform env (z i) p.2.1 p.2.2.1 p.2.2.2 i,
     cmap (normTemp data p.1),
     1/2 + 1/2 * ((i : ℚ) / (numLines : ℚ))))

/-- The two encoders tried by `main`: ffmpeg/MP4 then pillow/GIF. -/
inductive Encoder where
  | mp4
  | gif
deriving DecidableEq

/-- Observable outcome of the export section of `main`: which encoders were
attempted in order, which exception messages were printed, and whether
control reaches `plt.show()`. -/
structure ExportOutcome where
  attempts : List Encoder
  reportedErrors : List String
  shows : Bool
deriving DecidableEq

/-- The try/except structure of `main` around `ani.save`: try MP4; on any
exception print it and try GIF; on any exception there print it too; in
every case fall through to `plt.show()`. -/
def mainSaveAnimation (save : Encoder → Except String Unit) : ExportOutcome :=
  match save Encoder.mp4 with
  | Except.ok _ => { attempts := [Encoder.mp4], reportedErrors := [], shows := true }
  | Except.error e =>
    match save Encoder.gif with
    | Except.ok _ =>
        { attempts := [Encoder.mp4, Encoder.gif], reportedErrors := [e], shows := true }
    | Except.error e2 =>
        { attempts := [Encoder.mp4, Encoder.gif], reportedErrors := [e, e2], shows := true }

/-- The end-to-end pipeline of claim C9: generate the series, process
frame 0, return `(frequency, amplitude, complexity)`. -/
def pipelineFrame0 (env : NpEnv) (nd : NoiseDraws) : ℚ × ℚ × ℚ :=
  ((process_data (generate_sample_data env nd) 0).2.1,
   (process_data (generate_sample_data env nd) 0).2.2.1,
   (process_data (generate_sample_data env nd) 0).2.2.2)

/-- Concrete environment for witnesses: the zero function for `sin`, 0 for π. -/
def envZero : NpEnv := ⟨fun _ => 0, 0⟩

/-- Concrete environment with a nonzero stand-in for π. -/
def envPi : NpEnv := ⟨fun _ => 0, 355/113⟩

/-- Concrete all-zeros noise streams for witnesses. -/
def ndZero : NoiseDraws := ⟨fun _ => 0, fun _ => 0, fun _ => 0⟩

/-- Concrete noise streams giving distinct temperatures and humidity 300. -/
def ndBigHum : NoiseDraws := ⟨fun k => k, fun _ => 240, fun _ => 0⟩

/-! ### Helper lemmas (shared) -/

theorem foldl_min_le_init (xs : List ℚ) (a : ℚ) : xs.foldl min a ≤ a := by
  induction xs generalizing a with
  | nil => exact le_refl a
  | cons x xs ih => exact le_trans (ih (min a x)) (min_le_left a x)

theorem foldl_min_le_mem {x : ℚ} {xs : List ℚ} (hx : x ∈ xs) (a : ℚ) :
    xs.foldl min a ≤ x := by
  induction xs generalizing a with
  | nil => cases hx
  | cons y ys ih =>
    rcases List.mem_cons.mp hx with h | h
    · subst h
      exact le_trans (foldl_min_le_init ys (min a x)) (min_le_right a x)
    · exact ih h (min a y)

theorem init_le_foldl_max (xs : List ℚ) (a : ℚ) : a ≤ xs.foldl max a := by
  induction xs generalizing a with
  | nil => exact le_refl a
  | cons x xs ih => exact le_trans (le_max_left a x) (ih (max a x))

theorem mem_le_foldl_max {x : ℚ} {xs : List ℚ} (hx : x ∈ xs) (a : ℚ) :
    x ≤ xs.foldl max a := by
  induction xs generalizing a with
  | nil => cases hx
  | cons y ys ih =>
    rcases List.mem_cons.mp hx with h | h
    · subst h
      exact le_trans (le_max_right a x) (init_le_foldl_max ys (max a x))
    · exact ih h (max a y)

theorem colMin_le_of_mem {x : ℚ} {l : List ℚ} (hx : x ∈ l) : colMin l ≤ x := by
  cases l with
  | nil => cases hx
  | cons y ys =>
    rcases List.mem_cons.mp hx with h | h
    · subst h; exact foldl_min_le_init ys x
    · exact foldl_min_le_mem h y

theorem le_colMax_of_mem {x : ℚ} {l : List ℚ} (hx : x ∈ l) : x ≤ colMax l := by
  cases l with
  | nil => cases hx
  | cons y ys =>
    rcases List.mem_cons.mp hx with h | h
    · subst h; exact init_le_foldl_max ys x
    · exact mem_le_foldl_max h y

theorem getD_mem {α : Type} [Inhabited α] {l : List α} {i : ℕ} (h : i < l.length) :
    l.getD i default ∈ l := by
  rw [List.getD_eq_getElem l default h]
  exact List.getElem_mem h

theorem generate_sample_data_length (env : NpEnv) (nd : NoiseDraws) :
    (generate_sample_data env nd).length = 30 := by
  simp [generate_sample_data]

theorem wind_nonneg_of_mem (env : NpEnv) (nd : NoiseDraws) {r : Reading}
    (hr : r ∈ generate_sample_data env nd) : 0 ≤ r.wind_speed := by
  rcases List.mem_map.mp hr with ⟨k, -, hk⟩
  rw [← hk]
  exact abs_nonneg _

theorem process_data_def (data : List Reading) (frame : ℕ) :
    process_data data frame =
      (frame % data.length,
       1/2 + 3/2 * ((data.getD (frame % data.length) default).temperature
           - colMin (tempCol data)) / (colMax (tempCol data) - colMin (tempCol data)),
       1/2 + 1 * (data.getD (frame % data.length) default).humidity / 100,
       1 + (data.getD (frame % data.length) default).wind_speed / 5) := rfl

theorem foldl_add_eq_sum {α : Type} (f : α → ℚ) (l : List α) (b : ℚ) :
    l.foldl (fun y i => y + f i) b = b + (l.map f).sum := by
  induction l generalizing b with
  | nil => simp
  | cons x xs ih => simp [ih, add_assoc]

theorem pyInt_of_nonneg {c : ℚ} (h : 0 ≤ c) : pyInt c = ⌊c⌋ := if_pos h

theorem one_le_harmonicRange_length {c : ℚ} (h : 1 ≤ c) :
    1 ≤ (harmonicRange c).length := by
  have h0 : (0 : ℚ) ≤ c := le_trans zero_le_one h
  have hfl : (1 : ℤ) ≤ ⌊c⌋ := Int.le_floor.mpr (by exact_mod_cast h)
  rw [harmonicRange, List.length_map, List.length_range, pyInt_of_nonneg h0]
  omega

theorem colMin_eq_colMax_of_sub_eq_zero {l : List ℚ}
    (h : colMax l - colMin l = 0) {x y : ℚ} (hx : x ∈ l) (hy : y ∈ l) : x = y := by
  have hmm : colMax l = colMin l := by linarith
  have h1 : x ≤ colMax l := le_colMax_of_mem hx
  have h2 : colMin l ≤ x := colMin_le_of_mem hx
  have h3 : y ≤ colMax l := le_colMax_of_mem hy
  have h4 : colMin l ≤ y := colMin_le_of_mem hy
  linarith

theorem complexity_ge_one (env : NpEnv) (nd : NoiseDraws) (frame : ℕ) :
    1 ≤ (process_data (generate_sample_data env nd) frame).2.2.2 := by
  have hlen := generate_sample_data_length env nd
  have hidx : frame % (generate_sample_data env nd).length
      < (generate_sample_data env nd).length := by
    rw [hlen]; exact Nat.mod_lt _ (by norm_num)
  have hw : 0 ≤ ((generate_sample_data env nd).getD
      (frame % (generate_sample_data env nd).length) default).wind_speed :=
    wind_nonneg_of_mem env nd (getD_mem hidx)
  simp only [process_data_def]
  nlinarith

/-! ### Claims -/

/-- C1: for every frame, `process_data` computes exactly
`frequency = 0.5 + 1.5 * (temp - temp_min) / (temp_max - temp_min)` with the
min and max taken over the full 30-entry temperature series,
`amplitude = 0.5 + 1.0 * humidity / 100` and `complexity = 1 + wind / 5`,
where the reading is the one selected by index `frame % 30`. -/
theorem c1_process_data_formulas (env : NpEnv) (nd : NoiseDraws) (frame : ℕ) :
    process_data (generate_sample_data env nd) frame =
      (frame % 30,
       1/2 + 3/2 * (((generate_sample_data env nd).getD (frame % 30) default).temperature
           - colMin (tempCol (generate_sample_data env nd)))
         / (colMax (tempCol (generate_sample_data env nd))
             - colMin (tempCol (generate_sample_data env nd))),
       1/2 + 1 * ((generate_sample_data env nd).getD (frame % 30) default).humidity / 100,
       1 + ((generate_sample_data env nd).getD (frame % 30) default).wind_speed / 5) := by
  rw [process_data_def, generate_sample_data_length]

/-- C2: the generated series has exactly 30 readings, the index selected by
`process_data` equals `frame % 30`, and it lies in `[0, 30)`, hence within
the bounds of the series. -/
theorem c2_series_length_and_index (env : NpEnv) (nd : NoiseDraws) (frame : ℕ) :
    (generate_sample_data env nd).length = 30 ∧
    (process_data (generate_sample_data env nd) frame).1 = frame % 30 ∧
    frame % 30 < 30 ∧
    (process_data (generate_sample_data env nd) frame).1
      < (generate_sample_data env nd).length := by
  have hlen := generate_sample_data_length env nd
  have hidx : (process_data (generate_sample_data env nd) frame).1 = frame % 30 := by
    simp only [process_data_def, hlen]
  exact ⟨hlen, hidx, Nat.mod_lt _ (by norm_num), by
    rw [hidx, hlen]; exact Nat.mod_lt _ (by norm_num)⟩

/-- C4: every reading of every generated series has a nonnegative wind
speed, whatever the Gaussian draws were, because the noisy base wind is
passed through `np.abs` before being stored. -/
theorem c4_wind_nonneg (env : NpEnv) (nd : NoiseDraws) (r : Reading)
    (hr : r ∈ generate_sample_data env nd) : 0 ≤ r.wind_speed :=
  wind_nonneg_of_mem env nd hr

/-- Reading number 0 of the series generated with zero noise in the zero
environment. -/
def rFirst : Reading := ⟨0, 20, 60, 5⟩

/-- Witness for C4 at a concrete series and member. -/
theorem c4_wind_nonneg_witness :
    rFirst ∈ generate_sample_data envZero ndZero ∧ 0 ≤ rFirst.wind_speed := by
  have hmem : rFirst ∈ generate_sample_data envZero ndZero := by
    refine List.mem_map.mpr ⟨0, List.mem_range.mpr (by norm_num), ?_⟩
    simp only [envZero, ndZero, rFirst, Reading.mk.injEq]
    norm_num
  exact ⟨hmem, c4_wind_nonneg envZero ndZero rFirst hmem⟩

/-- C9: the pipeline from the data generator to the frame-0 mapping is a
pure function of the random stream: two runs seeing the same draws produce
the same `(frequency, amplitude, complexity)`. -/
theorem c9_deterministic (env : NpEnv) (nd1 nd2 : NoiseDraws) (h : nd1 = nd2) :
    pipelineFrame0 env nd1 = pipelineFrame0 env nd2 := by rw [h]

/-- Witness for C9 at the concrete zero environment and zero draws. -/
theorem c9_deterministic_witness :
    ndZero = ndZero ∧ pipelineFrame0 envZero ndZero = pipelineFrame0 envZero ndZero :=
  ⟨rfl, c9_deterministic envZero ndZero ndZero rfl⟩

/-- C3: the GIF encoder is attempted exactly once when (and only when) the
MP4 encoder raises; both failures are reported and control still reaches
the interactive display in every case. -/
theorem c3_export_fallback (save : Encoder → Except String Unit) :
    ((∃ e, save Encoder.mp4 = Except.error e) →
      (mainSaveAnimation save).attempts = [Encoder.mp4, Encoder.gif] ∧
      (mainSaveAnimation save).attempts.count Encoder.gif = 1 ∧
      (mainSaveAnimation save).shows = true) ∧
    (∀ u, save Encoder.mp4 = Except.ok u →
      (mainSaveAnimation save).attempts = [Encoder.mp4] ∧
      (mainSaveAnimation save).attempts.count Encoder.gif = 0 ∧
      (mainSaveAnimation save).shows = true) ∧
    (∀ e e2, save Encoder.mp4 = Except.error e → save Encoder.gif = Except.error e2 →
      (mainSaveAnimation save).reportedErrors = [e, e2] ∧
      (mainSaveAnimation save).shows = true) := by
  refine ⟨fun he => ?_, fun u hu => ?_, fun e e2 he he2 => ?_⟩
  · rcases he with ⟨e, he⟩
    cases h2 : save Encoder.gif <;> simp [mainSaveAnimation, he, h2]
  · simp [mainSaveAnimation, hu]
  · simp [mainSaveAnimation, he, he2]

/-- Save stub on which every encoder raises. -/
def saveFailAll : Encoder → Except String Unit := fun _ => Except.error "no encoder"

/-- Save stub on which every encoder succeeds. -/
def saveOkAll : Encoder → Except String Unit := fun _ => Except.ok ()

/-- Witness for C3: a run where MP4 fails (GIF attempted once, both errors
reported, display still reached) and a run where MP4 succeeds (GIF never
attempted). -/
theorem c3_export_fallback_witness :
    ((mainSaveAnimation saveFailAll).attempts = [Encoder.mp4, Encoder.gif] ∧
     (mainSaveAnimation saveFailAll).attempts.count Encoder.gif = 1 ∧
     (mainSaveAnimation saveFailAll).shows = true) ∧
    ((mainSaveAnimation saveFailAll).reportedErrors = ["no encoder", "no encoder"] ∧
     (mainSaveAnimation saveFailAll).shows = true) ∧
    ((mainSaveAnimation saveOkAll).attempts = [Encoder.mp4] ∧
     (mainSaveAnimation saveOkAll).attempts.count Encoder.gif = 0 ∧
     (mainSaveAnimation saveOkAll).shows = true) :=
  ⟨(c3_export_fallback saveFailAll).1 ⟨"no encoder", rfl⟩,
   (c3_export_fallback saveFailAll).2.2 "no encoder" "no encoder" rfl rfl,
   (c3_export_fallback saveOkAll).2.1 () rfl⟩

/-- C5: the harmonic loop of `generate_waveform` runs for
`i = 1 .. int(complexity)`, i.e. adds exactly `⌊complexity⌋` harmonic terms
for a nonnegative complexity; and the complexity produced by `process_data`
on a generated series is always at least 1 (wind speed is nonnegative), so
on pipeline values that count is at least 1. -/
theorem c5_harmonic_count (c : ℚ) (h : 0 ≤ c) (env : NpEnv) (nd : NoiseDraws)
    (frame : ℕ) :
    (harmonicRange c).length = (⌊c⌋).toNat ∧
    (1 ≤ c → 1 ≤ (harmonicRange c).length) ∧
    1 ≤ (process_data (generate_sample_data env nd) frame).2.2.2 ∧
    1 ≤ (harmonicRange
          ((process_data (generate_sample_data env nd) frame).2.2.2)).length := by
  refine ⟨?_, fun h1 => one_le_harmonicRange_length h1, complexity_ge_one env nd frame,
    one_le_harmonicRange_length (complexity_ge_one env nd frame)⟩
  rw [harmonicRange, List.length_map, List.length_range, pyInt_of_nonneg h]

/-- Witness for C5 at complexity 7/2 and the concrete zero run. -/
theorem c5_harmonic_count_witness :
    0 ≤ (7/2 : ℚ) ∧
    ((harmonicRange (7/2)).length = (⌊(7/2 : ℚ)⌋).toNat ∧
     (1 ≤ (7/2 : ℚ) → 1 ≤ (harmonicRange (7/2)).length) ∧
     1 ≤ (process_data (generate_sample_data envZero ndZero) 0).2.2.2 ∧
     1 ≤ (harmonicRange
           ((process_data (generate_sample_data envZero ndZero) 0).2.2.2)).length) :=
  ⟨by norm_num, c5_harmonic_count (7/2) (by norm_num) envZero ndZero 0⟩

theorem process_data_idx (data : List Reading) (frame : ℕ) :
    (process_data data frame).1 = frame % data.length := rfl

theorem process_data_frequency (data : List Reading) (frame : ℕ) :
    (process_data data frame).2.1
      = 1/2 + 3/2 * ((data.getD (frame % data.length) default).temperature
          - colMin (tempCol data)) / (colMax (tempCol data) - colMin (tempCol data)) := rfl

theorem process_data_amplitude (data : List Reading) (frame : ℕ) :
    (process_data data frame).2.2.1
      = 1/2 + 1 * (data.getD (frame % data.length) default).humidity / 100 := rfl

theorem data_length_pos_of_lt {data : List Reading}
    (h : colMin (tempCol data) < colMax (tempCol data)) : 0 < data.length := by
  cases data with
  | nil => simp [colMin, colMax, tempCol] at h
  | cons r rs => simp

theorem selected_temp_mem {data : List Reading} (frame : ℕ)
    (h : colMin (tempCol data) < colMax (tempCol data)) :
    (data.getD (frame % data.length) default).temperature ∈ tempCol data :=
  List.mem_map_of_mem Reading.temperature
    (getD_mem (Nat.mod_lt _ (data_length_pos_of_lt h)))

theorem selected_hum_mem {data : List Reading} (frame : ℕ)
    (h : colMin (tempCol data) < colMax (tempCol data)) :
    (data.getD (frame % data.length) default).humidity ∈ humCol data :=
  List.mem_map_of_mem Reading.humidity
    (getD_mem (Nat.mod_lt _ (data_length_pos_of_lt h)))

theorem normTemp_bounds {data : List Reading} (frame : ℕ)
    (h : colMin (tempCol data) < colMax (tempCol data)) :
    0 ≤ normTemp data (frame % data.length) ∧
    normTemp data (frame % data.length) ≤ 1 := by
  have hmem := selected_temp_mem frame h
  have h1 := colMin_le_of_mem hmem
  have h2 := le_colMax_of_mem hmem
  have hd : 0 < colMax (tempCol data) - colMin (tempCol data) := by linarith
  constructor
  · exact div_nonneg (by linarith) (le_of_lt hd)
  · rw [normTemp, div_le_one hd]
    linarith

/-- C6 counterexample: at `i = 1` with base amplitude 1, base frequency 1,
line index 1 and a nonzero stand-in for π, the harmonic amplitude of the
code is not `amplitude / i`, its frequency is not `frequency / i`, and its
phase shift is not `line_offset / (i + 1)`. -/
theorem c6_counterexample :
    harmonicAmp 1 1 ≠ 1 / 1 ∧
    harmonicFreq 1 1 ≠ 1 / 1 ∧
    phaseShift envPi 1 1 ≠ lineOffset envPi 1 / (1 + 1) := by
  refine ⟨?_, ?_, ?_⟩ <;>
    norm_num [harmonicAmp, harmonicFreq, phaseShift, lineOffset, envPi]

/-- C6 (amended): harmonic `i` of `generate_waveform` has amplitude
`amplitude / (2 * i)`, frequency `frequency * (i + 1/2)` and phase shift
`line_idx * π / (i + 1) = 2 * line_offset / (i + 1)` where
`line_offset = line_idx * π / 2` is the base waveform's phase offset; and
each `y` sample is the base waveform plus the sum of these harmonic terms
over `i = 1 .. int(complexity)` plus the scaled noise draw. -/
theorem c6_harmonic_parameters (env : NpEnv) (frequency amplitude : ℚ)
    (line_idx : ℕ) (i : ℤ) (x : ℚ) :
    harmonicTerm env frequency amplitude line_idx i x
      = harmonicAmp amplitude i
          * env.sin (harmonicFreq frequency i * x + phaseShift env line_idx i) ∧
    harmonicAmp amplitude i = amplitude / (2 * i) ∧
    harmonicFreq frequency i = frequency * ((i : ℚ) + 1/2) ∧
    phaseShift env line_idx i = 2 * lineOffset env line_idx / ((i : ℚ) + 1) ∧
    ∀ (z : ℕ → ℚ) (complexity : ℚ) (k : ℕ),
      waveY env z frequency amplitude complexity line_idx k
        = baseWave env frequency amplitude line_idx (xSample k)
          + ((harmonicRange complexity).map
              (fun j => harmonicTerm env frequency amplitude line_idx j (xSample k))).sum
          + (1/20 * complexity) * z k := by
  refine ⟨rfl, ?_, rfl, ?_, ?_⟩
  · rw [harmonicAmp, mul_comm]
  · rw [phaseShift, lineOffset]
    congr 1
    ring
  · intro z complexity k
    rw [waveY, foldl_add_eq_sum]

/-- Series with non-degenerate temperatures (0 and 1) and humidity 300 on
every reading; humidity 300 is reachable since the Gaussian humidity noise
is unbounded. -/
def cexSeries : List Reading := [⟨0, 0, 300, 0⟩, ⟨1, 1, 300, 0⟩]

/-- C7 counterexample: on a non-degenerate series the amplitude computed by
`process_data` is 3.5, outside `[0.5, 2]`, the widest range min–max
temperature normalization yields for these mappings — amplitude is not
mapped through any normalization at all. -/
theorem c7_counterexample :
    colMin (tempCol cexSeries) < colMax (tempCol cexSeries) ∧
    (process_data cexSeries 0).2.2.1 = 7/2 ∧
    ¬ ((process_data cexSeries 0).2.2.1 ≤ 2) := by
  have hamp : (process_data cexSeries 0).2.2.1 = 7/2 := by
    rw [process_data_amplitude]
    norm_num [cexSeries]
  refine ⟨?_, hamp, by rw [hamp]; norm_num⟩
  norm_num [cexSeries, tempCol, colMin, colMax, min_def, max_def]

/-- C7 (amended): given a non-degenerate temperature series, the frequency
of every frame lies in `[0.5, 2]` by min–max normalization of the
temperature series, while the amplitude is bounded by the series' humidity
extremes `[0.5 + hum_min/100, 0.5 + hum_max/100]`, with no dependence on
the temperature normalization. -/
theorem c7_bounded_parameters (data : List Reading) (frame : ℕ)
    (h : colMin (tempCol data) < colMax (tempCol data)) :
    (1/2 ≤ (process_data data frame).2.1 ∧ (process_data data frame).2.1 ≤ 2) ∧
    (1/2 + colMin (humCol data) / 100 ≤ (process_data data frame).2.2.1 ∧
     (process_data data frame).2.2.1 ≤ 1/2 + colMax (humCol data) / 100) := by
  have hnt := normTemp_bounds frame h
  have hfreq : (process_data data frame).2.1
      = 1/2 + 3/2 * normTemp data (frame % data.length) := by
    rw [process_data_frequency, normTemp, mul_div_assoc]
  have hhum := selected_hum_mem frame h
  have h1 := colMin_le_of_mem hhum
  have h2 := le_colMax_of_mem hhum
  refine ⟨⟨?_, ?_⟩, ?_, ?_⟩
  · rw [hfreq]; linarith [hnt.1]
  · rw [hfreq]; linarith [hnt.2]
  · rw [process_data_amplitude]; linarith
  · rw [process_data_amplitude]; linarith

/-- Small non-degenerate series used by witnesses. -/
def dataW : List Reading := [⟨0, 0, 50, 0⟩, ⟨1, 1, 60, 10⟩]

/-- Witness for C7 (amended) on a concrete non-degenerate series. -/
theorem c7_bounded_parameters_witness :
    colMin (tempCol dataW) < colMax (tempCol dataW) ∧
    ((1/2 ≤ (process_data dataW 0).2.1 ∧ (process_data dataW 0).2.1 ≤ 2) ∧
     (1/2 + colMin (humCol dataW) / 100 ≤ (process_data dataW 0).2.2.1 ∧
      (process_data dataW 0).2.2.1 ≤ 1/2 + colMax (humCol dataW) / 100)) := by
  have h : colMin (tempCol dataW) < colMax (tempCol dataW) := by
    norm_num [dataW, tempCol, colMin, colMax, min_def, max_def]
  exact ⟨h, c7_bounded_parameters dataW 0 h⟩

/-- C8: given a non-degenerate temperature series, the normalized
temperature of the selected reading lies in `[0, 1]`, the divisor of the
normalization is nonzero, the frequency mapping uses exactly this
normalized temperature, and the divisor can vanish only when all
temperatures of the series are identical. -/
theorem c8_normalized_temperature (data : List Reading) (frame : ℕ)
    (h : colMin (tempCol data) < colMax (tempCol data)) :
    (0 ≤ normTemp data ((process_data data frame).1) ∧
     normTemp data ((process_data data frame).1) ≤ 1) ∧
    colMax (tempCol data) - colMin (tempCol data) ≠ 0 ∧
    (process_data data frame).2.1
      = 1/2 + 3/2 * normTemp data ((process_data data frame).1) ∧
    (∀ d : List Reading, colMax (tempCol d) - colMin (tempCol d) = 0 →
      ∀ r ∈ d, ∀ s ∈ d, r.temperature = s.temperature) := by
  refine ⟨?_, ?_, ?_, ?_⟩
  · rw [process_data_idx]
    exact normTemp_bounds frame h
  · have : 0 < colMax (tempCol data) - colMin (tempCol data) := by linarith
    exact ne_of_gt this
  · rw [process_data_idx, process_data_frequency, normTemp, mul_div_assoc]
  · intro d hd r hr s hs
    exact colMin_eq_colMax_of_sub_eq_zero hd
      (List.mem_map_of_mem Reading.temperature hr)
      (List.mem_map_of_mem Reading.temperature hs)

/-- Witness for C8 on a concrete non-degenerate series. -/
theorem c8_normalized_temperature_witness :
    colMin (tempCol dataW) < colMax (tempCol dataW) ∧
    ((0 ≤ normTemp dataW ((process_data dataW 0).1) ∧
      normTemp dataW ((process_data dataW 0).1) ≤ 1) ∧
     colMax (tempCol dataW) - colMin (tempCol dataW) ≠ 0 ∧
     (process_data dataW 0).2.1
       = 1/2 + 3/2 * normTemp dataW ((process_data dataW 0).1) ∧
     (∀ d : List Reading, colMax (tempCol d) - colMin (tempCol d) = 0 →
       ∀ r ∈ d, ∀ s ∈ d, r.temperature = s.temperature)) := by
  have h : colMin (tempCol dataW) < colMax (tempCol dataW) := by
    norm_num [dataW, tempCol, colMin, colMax, min_def, max_def]
  exact ⟨h, c8_normalized_temperature dataW 0 h⟩

/-- C10: within one frame every one of the 5 lines receives the same color
`cmap(norm_temp)` — the colormap key depends only on the frame's reading
index, not on the line index — while the alphas are
`0.5 + 0.5 * (i / 5) = 0.5, 0.6, 0.7, 0.8, 0.9` for `i = 0 .. 4`. -/
theorem c10_line_color_alpha {Color : Type} (env : NpEnv) (cmap : ℚ → Color)
    (z : ℕ → ℕ → ℚ) (data : List Reading) (frame : ℕ) :
    (update env cmap z data frame).map (fun t => t.2.1)
      = List.replicate numLines (cmap (normTemp data (frame % data.length))) ∧
    (update env cmap z data frame).map (fun t => t.2.2)
      = [1/2, 3/5, 7/10, 4/5, 9/10] := by
  constructor
  · rfl
  · have step : (update env cmap z data frame).map (fun t => t.2.2)
        = [1/2 + 1/2 * (((0:ℕ) : ℚ) / ((numLines : ℕ) : ℚ)),
           1/2 + 1/2 * (((1:ℕ) : ℚ) / ((numLines : ℕ) : ℚ)),
           1/2 + 1/2 * (((2:ℕ) : ℚ) / ((numLines : ℕ) : ℚ)),
           1/2 + 1/2 * (((3:ℕ) : ℚ) / ((numLines : ℕ) : ℚ)),
           1/2 + 1/2 * (((4:ℕ) : ℚ) / ((numLines : ℕ) : ℚ))] := rfl
    rw [step]
    norm_num [numLines]
